import Mathlib

set_option autoImplicit false

/-!
Shallow embedding of the tcp_udp_example repository: a TCP-to-UDP
forwarding bridge (two variants: a thread-per-connection server and an
epoll-based server), a reliable-send helper `send_all`, and a UDP log
sink.  Pure control flow of each C function is translated into Lean
functions over explicit event traces; socket and transport outcomes are
inputs to those functions.
-/

/-- Diagnostic messages `send_all` (src/send_all.c) can emit: the
`printf` for a NULL buffer with non-zero length, and the `perror` for a
failed `send`. -/
inductive Diag where
  | invalidArgMsg
  | sendFailedMsg
  deriving DecidableEq

/-- One transport `send` invocation recorded by the `send_all` model:
the offset into the buffer (bytes sent so far) and the size requested
(remaining bytes). -/
structure SendCall where
  off : Nat
  sz : Nat
  deriving DecidableEq

/-- The `while (sent < len)` loop of `send_all` (src/send_all.c lines
41-53).  `tx j` is the return value of the j-th `send` call of this
`send_all` invocation; a return `n <= 0` triggers `perror` and `return
-1`, otherwise `sent += (unsigned)n`.  Returns the C return value, the
diagnostics printed, and the transport calls issued. -/
def send_all_loop (tx : Nat → Int) (len : Nat) (k : Nat) (sent : Nat) :
    Int × List Diag × List SendCall :=
  if h : sent < len then
    if hn : tx k ≤ 0 then
      (-1, [Diag.sendFailedMsg], [⟨sent, len - sent⟩])
    else
      let r := send_all_loop tx len (k + 1) (sent + (tx k).toNat)
      (r.1, r.2.1, ⟨sent, len - sent⟩ :: r.2.2)
  else
    (0, [], [])
termination_by len - sent
decreasing_by
  omega

/-- `send_all` (src/send_all.c lines 25-57).  `bufNull` models `buf ==
NULL`; `len` is the declared length; `tx` gives the transport responses.
The C code checks the NULL/non-zero-length contract violation first,
then returns 0 immediately for `len == 0`, and otherwise runs the send
loop. -/
def send_all (bufNull : Bool) (len : Nat) (tx : Nat → Int) :
    Int × List Diag × List SendCall :=
  if bufNull = true ∧ len ≠ 0 then
    (-1, [Diag.invalidArgMsg], [])
  else if len = 0 then
    (0, [], [])
  else
    send_all_loop tx len 0 0

/-- Contract of the send loop, written from the spec's words (section
4.1): starting with `sent` bytes accepted, repeatedly invoke the
transport on the remaining unsent suffix (offset = bytes sent so far,
size = len minus bytes sent so far); a write returning `n <= 0` is an
immediate terminal failure (result -1, no further calls); a positive
return advances by that many bytes; once all `len` bytes are accepted
the result is success (0) with no further calls. -/
inductive SendTrace (tx : Nat → Int) (len : Nat) : Nat → Nat → Int → List SendCall → Prop where
  | done (k sent : Nat) (h : len ≤ sent) : SendTrace tx len k sent 0 []
  | fail (k sent : Nat) (h : sent < len) (hr : tx k ≤ 0) :
      SendTrace tx len k sent (-1) [⟨sent, len - sent⟩]
  | step (k sent : Nat) (r : Int) (cs : List SendCall) (h : sent < len) (hr : 0 < tx k)
      (ht : SendTrace tx len (k + 1) (sent + (tx k).toNat) r cs) :
      SendTrace tx len k sent r (⟨sent, len - sent⟩ :: cs)

lemma send_all_loop_trace (tx : Nat → Int) (len : Nat) :
    ∀ (m k sent : Nat), len - sent ≤ m →
      SendTrace tx len k sent (send_all_loop tx len k sent).1
        (send_all_loop tx len k sent).2.2 := by
  intro m
  induction m with
  | zero =>
    intro k sent hm
    have h : ¬ sent < len := by omega
    rw [send_all_loop]
    simp only [h, dite_false]
    exact SendTrace.done k sent (by omega)
  | succ m ih =>
    intro k sent hm
    rw [send_all_loop]
    by_cases h : sent < len
    · simp only [h, dite_true]
      by_cases hn : tx k ≤ 0
      · simp only [hn, dite_true]
        exact SendTrace.fail k sent h hn
      · simp only [hn, dite_false]
        have hpos : 0 < (tx k).toNat := by omega
        have ht := ih (k + 1) (sent + (tx k).toNat) (by omega)
        exact SendTrace.step k sent _ _ h (by omega) ht
    · simp only [h, dite_false]
      exact SendTrace.done k sent (by omega)

lemma send_all_loop_len (tx : Nat → Int) (len : Nat) :
    ∀ (m k sent : Nat), len - sent ≤ m →
      (send_all_loop tx len k sent).2.2.length ≤ len - sent ∧
        ((send_all_loop tx len k sent).1 = 0 ∨ (send_all_loop tx len k sent).1 = -1) := by
  intro m
  induction m with
  | zero =>
    intro k sent hm
    have h : ¬ sent < len := by omega
    rw [send_all_loop]
    simp only [h, dite_false]
    simp
  | succ m ih =>
    intro k sent hm
    rw [send_all_loop]
    by_cases h : sent < len
    · simp only [h, dite_true]
      by_cases hn : tx k ≤ 0
      · simp only [hn, dite_true]
        simp
        omega
      · simp only [hn, dite_false]
        have hpos : 0 < (tx k).toNat := by omega
        have ht := ih (k + 1) (sent + (tx k).toNat) (by omega)
        constructor
        · simp only [List.length_cons]
          omega
        · exact ht.2
    · simp only [h, dite_false]
      simp

/-- C3: `send_all` called with a NULL buffer and a non-zero declared
length returns -1 immediately with the invalid-argument diagnostic and
issues no transport call at all; the invalid-argument diagnostic is
distinct from the transport-failure diagnostic. -/
theorem send_all_null_buffer (len : Nat) (tx : Nat → Int) (h : 0 < len) :
    send_all true len tx = (-1, [Diag.invalidArgMsg], []) ∧
    (send_all true len tx).2.2 = [] ∧
    Diag.invalidArgMsg ≠ Diag.sendFailedMsg := by
  have hne : (true = true ∧ len ≠ 0) := ⟨rfl, by omega⟩
  constructor
  · simp [send_all, hne]
  · constructor
    · simp [send_all, hne]
    · intro hc
      cases hc

theorem send_all_null_buffer_witness :
    send_all true 1 (fun _ => 1) = (-1, [Diag.invalidArgMsg], []) ∧
    (send_all true 1 (fun _ => 1)).2.2 = [] ∧
    Diag.invalidArgMsg ≠ Diag.sendFailedMsg :=
  send_all_null_buffer 1 (fun _ => 1) (by decide)

/-- C4: for a non-null buffer, `send_all` with length 0 succeeds without
any transport call, and for any length its return value and sequence of
transport calls realize the spec's send-loop contract `SendTrace`:
repeated writes of the remaining unsent suffix until complete success or
a first, immediately terminal, failure. -/
theorem send_all_meets_contract (len : Nat) (tx : Nat → Int) :
    send_all false 0 tx = (0, [], []) ∧
    SendTrace tx len 0 0 (send_all false len tx).1 (send_all false len tx).2.2 := by
  constructor
  · simp [send_all]
  · by_cases h0 : len = 0
    · subst h0
      simp only [send_all]
      norm_num
      exact SendTrace.done 0 0 (by omega)
    · have hcond : ¬ (false = true ∧ len ≠ 0) := by simp
      simp only [send_all, hcond, if_false, h0, if_false]
      exact send_all_loop_trace tx len len 0 0 (by omega)

/-- C10: `send_all` terminates with at most `len` transport calls (each
accepted write advances by at least one byte), its result is 0 or -1,
and a write attempt answered with `n <= 0` at any point of the loop
returns -1 immediately, with that attempt as the final transport call. -/
theorem send_all_terminates (bufNull : Bool) (len : Nat) (tx : Nat → Int)
    (k sent : Nat) (h1 : sent < len) (h2 : tx k ≤ 0) :
    (send_all bufNull len tx).2.2.length ≤ len ∧
    ((send_all bufNull len tx).1 = 0 ∨ (send_all bufNull len tx).1 = -1) ∧
    send_all_loop tx len k sent = (-1, [Diag.sendFailedMsg], [⟨sent, len - sent⟩]) := by
  refine ⟨?_, ?_, ?_⟩
  · by_cases hb : bufNull = true ∧ len ≠ 0
    · simp [send_all, hb]
    · by_cases h0 : len = 0
      · simp [send_all, hb, h0]
      · simp only [send_all, hb, if_false, h0, if_false]
        have := (send_all_loop_len tx len len 0 0 (by omega)).1
        omega
  · by_cases hb : bufNull = true ∧ len ≠ 0
    · simp [send_all, hb]
    · by_cases h0 : len = 0
      · simp [send_all, hb, h0]
      · simp only [send_all, hb, if_false, h0, if_false]
        exact (send_all_loop_len tx len len 0 0 (by omega)).2
  · rw [send_all_loop]
    simp [h1, h2]

theorem send_all_terminates_witness :
    ((send_all false 2 (fun _ => 0)).2.2.length ≤ 2 ∧
      ((send_all false 2 (fun _ => 0)).1 = 0 ∨ (send_all false 2 (fun _ => 0)).1 = -1) ∧
      send_all_loop (fun _ => 0) 2 0 0 = (-1, [Diag.sendFailedMsg], [⟨0, 2⟩])) :=
  send_all_terminates false 2 (fun _ => 0) 0 0 (by decide) (by decide)

/-- Outcome of one `recv` call on a client TCP socket: a chunk of bytes
(`n > 0`), end-of-stream (`n == 0`), a timeout (`n < 0` with
`EAGAIN`/`EWOULDBLOCK`), or any other error (`n < 0`). -/
inductive RecvResult where
  | data (bytes : List Nat)
  | closed
  | timeout
  | fatal
  deriving DecidableEq

/-- One iteration of the threaded handler `client_thread`
(tcp_server.c, shutdown variant): the value of the `running` flag read
at the loop condition, the `recv` outcome, and whether the `sendto`
forward (if reached) fails. -/
structure ClientIter where
  running : Bool
  recv : RecvResult
  sendtoFail : Bool
  deriving DecidableEq

/-- Observable actions of the connection handlers. -/
inductive Act where
  | forward (bytes : List Nat)
  | logForwardError
  | logDisconnect
  | closeSocket
  deriving DecidableEq

/-- The `while (running)` read loop of `client_thread` (shutdown
variant of tcp_server.c, lines 316-340).  Returns whether the loop
exited within the given trace, and the actions performed: a timeout
re-polls the flag, any other `recv` error or end-of-stream breaks, a
data chunk is forwarded by one `sendto` whose failure is only logged. -/
def client_thread_loop : List ClientIter → Bool × List Act
  | [] => (false, [])
  | it :: rest =>
    if it.running = false then (true, [])
    else
      match it.recv with
      | RecvResult.timeout => client_thread_loop rest
      | RecvResult.fatal => (true, [])
      | RecvResult.closed => (true, [])
      | RecvResult.data bs =>
        let r := client_thread_loop rest
        (r.1, Act.forward bs ::
          ((if it.sendtoFail then [Act.logForwardError] else []) ++ r.2))

/-- `client_thread` in full: run the read loop, then `close(client_fd)`
once the loop has exited (lines 342-344). -/
def client_thread_run (iters : List ClientIter) : Bool × List Act :=
  let r := client_thread_loop iters
  (r.1, r.2 ++ (if r.1 then [Act.closeSocket] else []))

/-- The forwarded chunks among a handler's actions, in order. -/
def forwardsOf : List Act → List (List Nat)
  | [] => []
  | Act.forward bs :: rest => bs :: forwardsOf rest
  | Act.logForwardError :: rest => forwardsOf rest
  | Act.logDisconnect :: rest => forwardsOf rest
  | Act.closeSocket :: rest => forwardsOf rest

/-- Written from the spec's words for the refinement statement of C1:
the chunk sequence the destination must receive from a threaded handler
is exactly the bytes of each successful read, in read order, up to the
point where the handler stops reading (shutdown flag observed false,
peer close, or non-transient error); transient timeouts contribute
nothing. -/
def specChunksThreaded : List ClientIter → List (List Nat)
  | [] => []
  | it :: rest =>
    if it.running = false then []
    else
      match it.recv with
      | RecvResult.timeout => specChunksThreaded rest
      | RecvResult.fatal => []
      | RecvResult.closed => []
      | RecvResult.data bs => bs :: specChunksThreaded rest

/-- One `recv` outcome inside `handle_client_data` (epoll_server.c):
outcome of the read plus whether the forwarding `sendto` fails. -/
structure EpollRead where
  recv : RecvResult
  sendtoFail : Bool
  deriving DecidableEq

/-- `handle_client_data` (epoll_server.c lines 165-195): drain the
non-blocking socket; `EAGAIN` ends the drain successfully (return 0),
other errors and end-of-stream return -1, data chunks are each
forwarded by one `sendto` whose failure is only logged.  `none` means
the given trace ended while the drain loop was still running. -/
def handle_client_data : List EpollRead → Option Int × List Act
  | [] => (none, [])
  | ev :: rest =>
    match ev.recv with
    | RecvResult.timeout => (some 0, [])
    | RecvResult.fatal => (some (-1), [])
    | RecvResult.closed => (some (-1), [Act.logDisconnect])
    | RecvResult.data bs =>
      let r := handle_client_data rest
      (r.1, Act.forward bs ::
        ((if ev.sendtoFail then [Act.logForwardError] else []) ++ r.2))

/-- Written from the spec's words for the refinement statement of C1,
epoll variant: chunks the destination must receive from one drain of a
client socket. -/
def specChunksEpoll : List EpollRead → List (List Nat)
  | [] => []
  | ev :: rest =>
    match ev.recv with
    | RecvResult.timeout => []
    | RecvResult.fatal => []
    | RecvResult.closed => []
    | RecvResult.data bs => bs :: specChunksEpoll rest

/-- The epoll main loop's per-client-event handling (epoll_server.c
lines 366-374): run `handle_client_data`; if it returned -1, remove the
socket from epoll and close it. -/
def epoll_client_event (evs : List EpollRead) : List Act :=
  let r := handle_client_data evs
  r.2 ++ (if r.1 = some (-1) then [Act.closeSocket] else [])

lemma forwardsOf_append (a b : List Act) :
    forwardsOf (a ++ b) = forwardsOf a ++ forwardsOf b := by
  induction a with
  | nil => rfl
  | cons x xs ih => cases x <;> simp [forwardsOf, ih]

lemma client_loop_forwards (iters : List ClientIter) :
    forwardsOf (client_thread_loop iters).2 = specChunksThreaded iters := by
  induction iters with
  | nil => rfl
  | cons it rest ih =>
    rcases it with ⟨r, rv, sf⟩
    cases r
    · simp [client_thread_loop, specChunksThreaded, forwardsOf]
    · cases rv <;> cases sf <;>
        simp [client_thread_loop, specChunksThreaded, forwardsOf, forwardsOf_append, ih]

lemma handle_client_forwards (evs : List EpollRead) :
    forwardsOf (handle_client_data evs).2 = specChunksEpoll evs := by
  induction evs with
  | nil => rfl
  | cons ev rest ih =>
    rcases ev with ⟨rv, sf⟩
    cases rv <;> cases sf <;>
      simp [handle_client_data, specChunksEpoll, forwardsOf, forwardsOf_append, ih]

lemma client_run_forwards (iters : List ClientIter) :
    forwardsOf (client_thread_run iters).2 = specChunksThreaded iters := by
  unfold client_thread_run
  cases h : (client_thread_loop iters).1 <;>
    simp [forwardsOf_append, forwardsOf, client_loop_forwards, h]

/-- C1: each chunk a handler reads (`n > 0` bytes) is forwarded as one
`sendto` with exactly those bytes, in order, with no buffering,
coalescing, splitting, or added framing: the forwarded-chunk sequence of
the threaded handler and of the epoll handler equals the read-chunk
sequence of the trace. -/
theorem forwarded_chunks_exact (iters : List ClientIter) (evs : List EpollRead) :
    forwardsOf (client_thread_run iters).2 = specChunksThreaded iters ∧
    forwardsOf (handle_client_data evs).2 = specChunksEpoll evs :=
  ⟨client_run_forwards iters, handle_client_forwards evs⟩

lemma client_loop_flag_congr {iters iters' : List ClientIter}
    (h : List.Forall₂ (fun a b => a.running = b.running ∧ a.recv = b.recv) iters iters') :
    (client_thread_loop iters).1 = (client_thread_loop iters').1 := by
  induction h with
  | nil => rfl
  | @cons a b l1 l2 hab htail ih =>
    obtain ⟨h1, h2⟩ := hab
    cases hbr : b.running <;> cases hrv : b.recv <;>
      simp [client_thread_loop, h1, h2, hbr, hrv, ih]

lemma specChunks_congr {iters iters' : List ClientIter}
    (h : List.Forall₂ (fun a b => a.running = b.running ∧ a.recv = b.recv) iters iters') :
    specChunksThreaded iters = specChunksThreaded iters' := by
  induction h with
  | nil => rfl
  | @cons a b l1 l2 hab htail ih =>
    obtain ⟨h1, h2⟩ := hab
    cases hbr : b.running <;> cases hrv : b.recv <;>
      simp [specChunksThreaded, h1, h2, hbr, hrv, ih]

lemma handle_client_congr {evs evs' : List EpollRead}
    (h : List.Forall₂ (fun a b => a.recv = b.recv) evs evs') :
    (handle_client_data evs).1 = (handle_client_data evs').1 ∧
    specChunksEpoll evs = specChunksEpoll evs' := by
  induction h with
  | nil => exact ⟨rfl, rfl⟩
  | @cons a b l1 l2 hab htail ih =>
    cases hrv : b.recv <;>
      simp [handle_client_data, specChunksEpoll, hab, hrv, ih.1, ih.2]

/-- C2: a `sendto` forward failure never terminates a handler or closes
its connection: two traces that agree on the shutdown flag and on every
`recv` outcome, but differ arbitrarily in which forwards fail, give the
same loop progress (same exit/continue behaviour) and the same sequence
of subsequent forward attempts, for both the threaded and the epoll
handler. -/
theorem forward_failure_isolated (iters iters' : List ClientIter) (evs evs' : List EpollRead)
    (h : List.Forall₂ (fun a b => a.running = b.running ∧ a.recv = b.recv) iters iters')
    (h2 : List.Forall₂ (fun a b => a.recv = b.recv) evs evs') :
    (client_thread_run iters).1 = (client_thread_run iters').1 ∧
    forwardsOf (client_thread_run iters).2 = forwardsOf (client_thread_run iters').2 ∧
    (handle_client_data evs).1 = (handle_client_data evs').1 ∧
    forwardsOf (handle_client_data evs).2 = forwardsOf (handle_client_data evs').2 := by
  refine ⟨?_, ?_, (handle_client_congr h2).1, ?_⟩
  · simp only [client_thread_run]
    exact client_loop_flag_congr h
  · rw [client_run_forwards, client_run_forwards]
    exact specChunks_congr h
  · rw [handle_client_forwards, handle_client_forwards]
    exact (handle_client_congr h2).2

theorem forward_failure_isolated_witness :
    ((client_thread_run [⟨true, RecvResult.data [1, 2], true⟩, ⟨true, RecvResult.closed, false⟩]).1 =
      (client_thread_run [⟨true, RecvResult.data [1, 2], false⟩, ⟨true, RecvResult.closed, false⟩]).1 ∧
    forwardsOf (client_thread_run [⟨true, RecvResult.data [1, 2], true⟩, ⟨true, RecvResult.closed, false⟩]).2 =
      forwardsOf (client_thread_run [⟨true, RecvResult.data [1, 2], false⟩, ⟨true, RecvResult.closed, false⟩]).2 ∧
    (handle_client_data [⟨RecvResult.data [7], true⟩, ⟨RecvResult.timeout, false⟩]).1 =
      (handle_client_data [⟨RecvResult.data [7], false⟩, ⟨RecvResult.timeout, false⟩]).1 ∧
    forwardsOf (handle_client_data [⟨RecvResult.data [7], true⟩, ⟨RecvResult.timeout, false⟩]).2 =
      forwardsOf (handle_client_data [⟨RecvResult.data [7], false⟩, ⟨RecvResult.timeout, false⟩]).2) :=
  forward_failure_isolated _ _ _ _
    (List.Forall₂.cons ⟨rfl, rfl⟩ (List.Forall₂.cons ⟨rfl, rfl⟩ List.Forall₂.nil))
    (List.Forall₂.cons rfl (List.Forall₂.cons rfl List.Forall₂.nil))

lemma closeSocket_not_in_loop (iters : List ClientIter) :
    Act.closeSocket ∉ (client_thread_loop iters).2 := by
  induction iters with
  | nil => simp [client_thread_loop]
  | cons it rest ih =>
    rcases it with ⟨r, rv, sf⟩
    cases r <;> cases rv <;> cases sf <;>
      simp [client_thread_loop, ih]

lemma getLast_eq_some_mem {α : Type} {l : List α} {a : α}
    (h : l.getLast? = some a) : a ∈ l := by
  induction l with
  | nil => cases h
  | cons x xs ih =>
    cases xs with
    | nil =>
      simp only [List.getLast?_singleton, Option.some.injEq] at h
      simp [h]
    | cons y ys =>
      rw [List.getLast?_cons_cons] at h
      exact List.mem_cons_of_mem x (ih h)

/-- C5: the handler is the state machine Reading to Reading or Closing.
Observing the shutdown flag false, an end-of-stream read, or a
non-transient read error each end the loop with the socket close as the
only and terminal remaining step (no forward of any unread bytes); a
transient timeout keeps the loop reading with no action; a data read
forwards that chunk and keeps reading; the loop itself never closes the
socket, and a finished run ends with the close exactly as its terminal
action.  The epoll dispatch likewise closes the client socket exactly on
the paths where the drain reported end-of-stream or a non-transient
error, and keeps it open on a transient drain end. -/
theorem handler_state_machine (rest : List ClientIter) (rv : RecvResult) (sf : Bool)
    (bs : List Nat) (evs' : List EpollRead) :
    client_thread_run (⟨false, rv, sf⟩ :: rest) = (true, [Act.closeSocket]) ∧
    client_thread_run (⟨true, RecvResult.closed, sf⟩ :: rest) = (true, [Act.closeSocket]) ∧
    client_thread_run (⟨true, RecvResult.fatal, sf⟩ :: rest) = (true, [Act.closeSocket]) ∧
    client_thread_run (⟨true, RecvResult.timeout, sf⟩ :: rest) = client_thread_run rest ∧
    (client_thread_run (⟨true, RecvResult.data bs, sf⟩ :: rest)).1 = (client_thread_run rest).1 ∧
    forwardsOf (client_thread_run (⟨true, RecvResult.data bs, sf⟩ :: rest)).2 =
      bs :: forwardsOf (client_thread_run rest).2 ∧
    ((client_thread_run rest).1 = true ↔
      (client_thread_run rest).2.getLast? = some Act.closeSocket) ∧
    Act.closeSocket ∉ (client_thread_loop rest).2 ∧
    epoll_client_event (⟨RecvResult.closed, sf⟩ :: evs') = [Act.logDisconnect, Act.closeSocket] ∧
    epoll_client_event (⟨RecvResult.fatal, sf⟩ :: evs') = [Act.closeSocket] ∧
    epoll_client_event (⟨RecvResult.timeout, sf⟩ :: evs') = [] := by
  refine ⟨rfl, rfl, rfl, rfl, rfl, ?_, ?_, closeSocket_not_in_loop rest, ?_, ?_, ?_⟩
  · rw [client_run_forwards, client_run_forwards]
    simp [specChunksThreaded]
  · unfold client_thread_run
    have hni : Act.closeSocket ∉ (client_thread_loop rest).2 := closeSocket_not_in_loop rest
    rcases hsplit : client_thread_loop rest with ⟨f, acts⟩
    rw [hsplit] at hni
    show f = true ↔
      (acts ++ if f = true then [Act.closeSocket] else []).getLast? = some Act.closeSocket
    cases f
    · rw [if_neg (by simp), List.append_nil]
      constructor
      · intro hc
        cases hc
      · intro hc
        exact ((hni (getLast_eq_some_mem hc)).elim : False).elim
    · rw [if_pos rfl, List.getLast?_append_cons]
      simp
  · simp [epoll_client_event, handle_client_data]
  · simp [epoll_client_event, handle_client_data]
  · simp [epoll_client_event, handle_client_data]

/-- Outcome of one `accept` call: a new connection, a timeout
(`EAGAIN`/`EWOULDBLOCK` from the 1-second `SO_RCVTIMEO`), or any other
error. -/
inductive AcceptResult where
  | conn
  | timeout
  | fatalErr
  deriving DecidableEq

/-- One iteration of `accept_thread_func` (tcp_server.c, shutdown
variant, lines 237-288): the `running` value read at the loop condition,
the value re-read for the `if (running) perror` guard, whether the
`setsockopt` and `malloc` calls succeed, the `accept` outcome, and
whether `pthread_create` succeeds. -/
structure AcceptIter where
  running : Bool
  running2 : Bool
  sockoptOk : Bool
  mallocOk : Bool
  res : AcceptResult
  spawnOk : Bool
  deriving DecidableEq

/-- Observable actions of the acceptors. -/
inductive AccAct where
  | logSetsockoptFail
  | logMallocFail
  | logAcceptErr
  | dispatchHandler
  | closeClientFd
  | logSpawnFail
  | removeAndCloseClient
  deriving DecidableEq

/-- The `while (running)` loop of `accept_thread_func`: set the accept
timeout (failure only logged), allocate the per-client struct (failure
logged, continue), accept (timeout: silently continue; other failure:
perror only if `running` is still observed true, continue), then spawn
the handler thread (failure: close the new socket, log, continue).
Returns whether the loop exited within the trace and the actions. -/
def accept_thread_loop : List AcceptIter → Bool × List AccAct
  | [] => (false, [])
  | it :: rest =>
    if it.running = false then (true, [])
    else
      let pre := if it.sockoptOk then [] else [AccAct.logSetsockoptFail]
      let acts :=
        if it.mallocOk = false then [AccAct.logMallocFail]
        else
          match it.res with
          | AcceptResult.timeout => []
          | AcceptResult.fatalErr => if it.running2 then [AccAct.logAcceptErr] else []
          | AcceptResult.conn =>
            if it.spawnOk then [AccAct.dispatchHandler]
            else [AccAct.closeClientFd, AccAct.logSpawnFail]
      let r := accept_thread_loop rest
      (r.1, pre ++ acts ++ r.2)

/-- Events delivered by one `epoll_wait` batch (epoll_server.c lines
341-375): an event on the listening socket whose `accept` fails, a
successful `accept` (with the outcomes of `set_nonblocking` and
`epoll_ctl` add), or an event on a client socket (with whether
`handle_client_data` reported the connection finished). -/
inductive EpollEv where
  | acceptFail
  | acceptOk (nbOk : Bool) (addOk : Bool)
  | clientReadable (handlerDone : Bool)
  deriving DecidableEq

/-- Outcome of one `epoll_wait` call. -/
inductive EpollWaitRes where
  | ready (evs : List EpollEv)
  | eintr
  | fatalErr
  deriving DecidableEq

/-- One iteration of the epoll server's main loop (epoll_server.c lines
313-376): the `running` value at the loop condition, whether the stdin
poll read a quit command, and the `epoll_wait` outcome. -/
structure EpollIter where
  running : Bool
  quitTyped : Bool
  wait : EpollWaitRes
  deriving DecidableEq

/-- Why the epoll main loop stopped looping. -/
inductive ExitReason where
  | flagFalse
  | quitCommand
  | epollWaitError
  deriving DecidableEq

/-- Per-event handling inside the epoll main loop's `for` cycle: every
branch ends in `continue` or falls through; none exits the loop. -/
def epoll_event_actions : EpollEv → List AccAct
  | EpollEv.acceptFail => [AccAct.logAcceptErr]
  | EpollEv.acceptOk false _ => [AccAct.closeClientFd]
  | EpollEv.acceptOk true false => [AccAct.closeClientFd]
  | EpollEv.acceptOk true true => [AccAct.dispatchHandler]
  | EpollEv.clientReadable true => [AccAct.removeAndCloseClient]
  | EpollEv.clientReadable false => []

/-- The `while (running)` event loop of the epoll server: quit input
sets the flag false and breaks; `epoll_wait` failing with `EINTR`
continues, failing otherwise breaks the loop; a batch of ready events is
handled entirely (accept failures logged, handler-finished clients
removed and closed) and the loop continues. -/
def epoll_main_loop : List EpollIter → Option ExitReason × List AccAct
  | [] => (none, [])
  | it :: rest =>
    if it.running = false then (some ExitReason.flagFalse, [])
    else if it.quitTyped then (some ExitReason.quitCommand, [])
    else
      match it.wait with
      | EpollWaitRes.fatalErr => (some ExitReason.epollWaitError, [])
      | EpollWaitRes.eintr => epoll_main_loop rest
      | EpollWaitRes.ready evs =>
        let r := epoll_main_loop rest
        (r.1, (evs.map epoll_event_actions).flatten ++ r.2)

lemma accept_loop_exit_iff (iters : List AcceptIter) :
    (accept_thread_loop iters).1 = true ↔ ∃ it ∈ iters, it.running = false := by
  induction iters with
  | nil => simp [accept_thread_loop]
  | cons it rest ih =>
    cases hr : it.running
    · simp [accept_thread_loop, hr]
    · simp only [accept_thread_loop, hr]
      norm_num
      rw [ih]
      simp [hr]

/-- C7 counterexample: the epoll variant's acceptor loop can exit
without ever observing the shutdown flag false.  On a trace whose single
iteration has `running` true, no quit input, and a fatal `epoll_wait`
failure, the loop exits with reason `epollWaitError`, not `flagFalse`. -/
theorem acceptor_exit_counterexample :
    (epoll_main_loop [⟨true, false, EpollWaitRes.fatalErr⟩]).1 =
      some ExitReason.epollWaitError ∧
    ExitReason.epollWaitError ≠ ExitReason.flagFalse := by
  constructor
  · rfl
  · intro hc
    cases hc

/-- C7 (amended): the threaded acceptor continues through every
iteration whose `running` read is true — whatever the accept outcome
(timeout or fatal error), malloc or spawn failure — and its loop has
exited within a trace exactly when some iteration observed the flag
false.  The epoll variant's event loop likewise continues through every
ready batch (accept failures and per-connection errors included) and
through `EINTR`, but it exits not only on observing the flag false: a
quit command and a fatal `epoll_wait` failure also end it. -/
theorem acceptor_resilience (r2 soOk mOk spOk q : Bool) (res : AcceptResult)
    (rest iters : List AcceptIter) (evs : List EpollEv)
    (erest : List EpollIter) (w : EpollWaitRes) :
    (accept_thread_loop (⟨true, r2, soOk, mOk, res, spOk⟩ :: rest)).1 =
      (accept_thread_loop rest).1 ∧
    accept_thread_loop (⟨false, r2, soOk, mOk, res, spOk⟩ :: rest) = (true, []) ∧
    ((accept_thread_loop iters).1 = true ↔ ∃ it ∈ iters, it.running = false) ∧
    (epoll_main_loop (⟨true, false, EpollWaitRes.ready evs⟩ :: erest)).1 =
      (epoll_main_loop erest).1 ∧
    (epoll_main_loop (⟨true, false, EpollWaitRes.eintr⟩ :: erest)).1 =
      (epoll_main_loop erest).1 ∧
    (epoll_main_loop (⟨false, q, w⟩ :: erest)).1 = some ExitReason.flagFalse ∧
    (epoll_main_loop (⟨true, true, w⟩ :: erest)).1 = some ExitReason.quitCommand ∧
    (epoll_main_loop (⟨true, false, EpollWaitRes.fatalErr⟩ :: erest)).1 =
      some ExitReason.epollWaitError := by
  refine ⟨rfl, rfl, accept_loop_exit_iff iters, rfl, rfl, rfl, rfl, rfl⟩

/-- Actions of the bridge servers' main threads around shutdown. -/
inductive MainAct where
  | setRunningFalse
  | printShutdown
  | joinAcceptThread
  | closeListenFd
  | closeUdpSocket
  | closeEpollFd
  | exitStatus (n : Nat)
  deriving DecidableEq

/-- `strncmp(input, "quit", 4) == 0` on a console line. -/
def isQuitCmd (line : List Char) : Bool :=
  line.take 4 == ['q', 'u', 'i', 't']

/-- The main thread's `while (running)` stdin loop of the threaded
tcp_server (lines 429-440): a quit line sets the flag false, prints the
shutdown message and breaks; any other line is ignored.  Returns the
flag value when the trace ends and the actions performed. -/
def tcp_main_wait (inputs : List (List Char)) : Bool × List MainAct :=
  match inputs with
  | [] => (true, [])
  | s :: rest =>
    if isQuitCmd s then (false, [MainAct.setRunningFalse, MainAct.printShutdown])
    else tcp_main_wait rest

/-- The threaded tcp_server main thread from the stdin loop onward
(lines 429-454): once the loop has broken, join the accept thread, close
the listening socket, close the UDP socket, and return 0.  `none` means
the loop was still waiting when the trace ended. -/
def tcp_main_run (inputs : List (List Char)) : Option (Bool × List MainAct) :=
  match tcp_main_wait inputs with
  | (true, _) => none
  | (false, acts) =>
    some (false, acts ++ [MainAct.joinAcceptThread, MainAct.closeListenFd,
      MainAct.closeUdpSocket, MainAct.exitStatus 0])

/-- The epoll server after its event loop has exited (epoll_server.c
lines 378-384): close the listening socket, the UDP socket and the epoll
fd, and return 0. -/
def epoll_main_run (iters : List EpollIter) : Option (List MainAct) :=
  match (epoll_main_loop iters).1 with
  | none => none
  | some _ =>
    some [MainAct.closeListenFd, MainAct.closeUdpSocket, MainAct.closeEpollFd,
      MainAct.exitStatus 0]

/-- Successive values of the `running` flag: its initial value, then the
value after each executed write.  Every write statement to `running` in
the source (tcp_server.c line 435, epoll_server.c line 323, udp_server.c
line 182) stores 0, so a program execution's write list is all-false. -/
def runningAfterWrites : Bool → List Bool → List Bool
  | v, [] => [v]
  | v, w :: ws => v :: runningAfterWrites w ws

/-- The flag's value history starting from its initializer `1`. -/
def runningTrace (ws : List Bool) : List Bool :=
  runningAfterWrites true ws

lemma runningAfterWrites_false (ws : List Bool) (h : ∀ b ∈ ws, b = false) :
    ∀ v : Bool, runningAfterWrites v ws = v :: List.replicate ws.length false := by
  induction ws with
  | nil =>
    intro v
    rfl
  | cons w ws ih =>
    intro v
    have hw : w = false := h w (by simp)
    have ih2 := ih (fun x hx => h x (by simp [hx])) w
    subst hw
    simp [runningAfterWrites, ih2, List.replicate_succ]

lemma tcp_main_wait_quit (inputs : List (List Char))
    (h : ∃ s ∈ inputs, isQuitCmd s = true) :
    tcp_main_wait inputs = (false, [MainAct.setRunningFalse, MainAct.printShutdown]) := by
  induction inputs with
  | nil => simp at h
  | cons s rest ih =>
    by_cases hq : isQuitCmd s = true
    · simp [tcp_main_wait, hq]
    · rcases h with ⟨t, ht, hqt⟩
      rcases List.mem_cons.mp ht with h1 | h2
      · subst h1
        exact absurd hqt hq
      · simp only [tcp_main_wait, hq, if_false]
        exact ih ⟨t, h2, hqt⟩

/-- C6: all writes to the `running` flag store false, so from its
initial true it transitions at most once and never back (the flag
history after any all-false write list, double trigger included, is true
followed by constant false); an operator quit line makes the threaded
main thread set the flag once, print, join the acceptor, close the
listening and UDP sockets in that order and exit 0; an acceptor
iteration observing the flag false exits its loop; a handler iteration
observing the flag false performs no forward; and the epoll server's
quit path exits its loop and closes its sockets before returning 0. -/
theorem shutdown_flag_protocol (ws : List Bool) (inputs : List (List Char))
    (rv : RecvResult) (sf : Bool) (rest : List ClientIter)
    (r2 soOk mOk spOk : Bool) (res : AcceptResult) (arest : List AcceptIter)
    (w : EpollWaitRes) (erest : List EpollIter)
    (hw : ∀ b ∈ ws, b = false)
    (hq : ∃ s ∈ inputs, isQuitCmd s = true) :
    runningTrace ws = true :: List.replicate ws.length false ∧
    tcp_main_run inputs = some (false,
      [MainAct.setRunningFalse, MainAct.printShutdown, MainAct.joinAcceptThread,
        MainAct.closeListenFd, MainAct.closeUdpSocket, MainAct.exitStatus 0]) ∧
    accept_thread_loop (⟨false, r2, soOk, mOk, res, spOk⟩ :: arest) = (true, []) ∧
    forwardsOf (client_thread_run (⟨false, rv, sf⟩ :: rest)).2 = [] ∧
    (epoll_main_loop (⟨true, true, w⟩ :: erest)).1 = some ExitReason.quitCommand ∧
    epoll_main_run (⟨true, true, w⟩ :: erest) =
      some [MainAct.closeListenFd, MainAct.closeUdpSocket, MainAct.closeEpollFd,
        MainAct.exitStatus 0] := by
  refine ⟨runningAfterWrites_false ws hw true, ?_, rfl, rfl, rfl, ?_⟩
  · unfold tcp_main_run
    rw [tcp_main_wait_quit inputs hq]
    rfl
  · unfold epoll_main_run
    rfl

theorem shutdown_flag_protocol_witness :
    (runningTrace [false, false] = true :: List.replicate 2 false ∧
    tcp_main_run [['q', 'u', 'i', 't']] = some (false,
      [MainAct.setRunningFalse, MainAct.printShutdown, MainAct.joinAcceptThread,
        MainAct.closeListenFd, MainAct.closeUdpSocket, MainAct.exitStatus 0]) ∧
    accept_thread_loop [⟨false, true, true, true, AcceptResult.timeout, true⟩] = (true, []) ∧
    forwardsOf (client_thread_run [⟨false, RecvResult.closed, false⟩]).2 = [] ∧
    (epoll_main_loop [⟨true, true, EpollWaitRes.eintr⟩]).1 = some ExitReason.quitCommand ∧
    epoll_main_run [⟨true, true, EpollWaitRes.eintr⟩] =
      some [MainAct.closeListenFd, MainAct.closeUdpSocket, MainAct.closeEpollFd,
        MainAct.exitStatus 0]) :=
  shutdown_flag_protocol [false, false] [['q', 'u', 'i', 't']] RecvResult.closed false []
    true true true true AcceptResult.timeout [] EpollWaitRes.eintr []
    (by decide) ⟨['q', 'u', 'i', 't'], by simp, by decide⟩

/-- Startup actions of the two bridge servers. -/
inductive SetupAct where
  | usageError
  | createUdpSock
  | createEpollFd
  | createTcpSock
  | logErr
  | closeUdpSock
  | closeEpollFd
  | closeTcpSock
  | exitStatus (n : Nat)
  | serverReady
  deriving DecidableEq

/-- Startup of the threaded tcp_server's `main` (shutdown variant,
lines 356-418), in source order: argc check; create the UDP socket;
fill `udp_addr` and validate the host; create the TCP listening socket;
only then check `htons(atoi(argv[1])) == 0` and print the usage error;
then bind and listen.  `port` is the 16-bit network-order port value. -/
def tcp_server_startup (argcIs4 udpSockOk hostValid tcpSockOk : Bool) (port : Nat)
    (bindOk listenOk : Bool) : List SetupAct :=
  if argcIs4 = false then [SetupAct.usageError, SetupAct.exitStatus 1]
  else
    SetupAct.createUdpSock ::
      (if udpSockOk = false then [SetupAct.logErr, SetupAct.exitStatus 1]
       else if hostValid = false then
         [SetupAct.logErr, SetupAct.closeUdpSock, SetupAct.exitStatus 1]
       else SetupAct.createTcpSock ::
         (if tcpSockOk = false then
           [SetupAct.logErr, SetupAct.closeUdpSock, SetupAct.exitStatus 1]
          else if port = 0 then
           [SetupAct.usageError, SetupAct.closeUdpSock, SetupAct.closeTcpSock,
             SetupAct.exitStatus 1]
          else if bindOk = false then
           [SetupAct.logErr, SetupAct.closeUdpSock, SetupAct.closeTcpSock,
             SetupAct.exitStatus 1]
          else if listenOk = false then
           [SetupAct.logErr, SetupAct.closeUdpSock, SetupAct.closeTcpSock,
             SetupAct.exitStatus 1]
          else [SetupAct.serverReady]))

/-- Startup of the epoll server's `main` (epoll_server.c lines 206-298),
in source order: argc check; create the UDP socket; validate the host;
create the epoll instance; create the TCP listening socket; set
`SO_REUSEADDR` (failure fatal here); only then check the port for zero;
then bind, listen, set non-blocking, and register with epoll. -/
def epoll_server_startup (argcIs4 udpSockOk hostValid epollOk tcpSockOk sockoptOk : Bool)
    (port : Nat) (bindOk listenOk nonblockOk addOk : Bool) : List SetupAct :=
  if argcIs4 = false then [SetupAct.usageError, SetupAct.exitStatus 1]
  else
    SetupAct.createUdpSock ::
      (if udpSockOk = false then [SetupAct.logErr, SetupAct.exitStatus 1]
       else if hostValid = false then
         [SetupAct.logErr, SetupAct.closeUdpSock, SetupAct.exitStatus 1]
       else SetupAct.createEpollFd ::
         (if epollOk = false then
           [SetupAct.logErr, SetupAct.closeUdpSock, SetupAct.exitStatus 1]
          else SetupAct.createTcpSock ::
            (if tcpSockOk = false then
              [SetupAct.logErr, SetupAct.closeUdpSock, SetupAct.closeEpollFd,
                SetupAct.exitStatus 1]
             else if sockoptOk = false then
              [SetupAct.logErr, SetupAct.closeUdpSock, SetupAct.closeEpollFd,
                SetupAct.closeTcpSock, SetupAct.exitStatus 1]
             else if port = 0 then
              [SetupAct.usageError, SetupAct.closeUdpSock, SetupAct.closeEpollFd,
                SetupAct.closeTcpSock, SetupAct.exitStatus 1]
             else if bindOk = false then
              [SetupAct.logErr, SetupAct.closeUdpSock, SetupAct.closeEpollFd,
                SetupAct.closeTcpSock, SetupAct.exitStatus 1]
             else if listenOk = false then
              [SetupAct.logErr, SetupAct.closeUdpSock, SetupAct.closeEpollFd,
                SetupAct.closeTcpSock, SetupAct.exitStatus 1]
             else if nonblockOk = false then
              [SetupAct.logErr, SetupAct.closeUdpSock, SetupAct.closeEpollFd,
                SetupAct.closeTcpSock, SetupAct.exitStatus 1]
             else if addOk = false then
              [SetupAct.logErr, SetupAct.closeUdpSock, SetupAct.closeEpollFd,
                SetupAct.closeTcpSock, SetupAct.exitStatus 1]
             else [SetupAct.serverReady])))

/-- C9 counterexample: on a zero-port invocation with everything else
valid, the server creates the UDP socket and the TCP listening socket
before printing the usage error and exiting 1 — the configuration
failure does not occur before socket work. -/
theorem config_failure_counterexample :
    SetupAct.createUdpSock ∈ tcp_server_startup true true true true 0 true true ∧
    SetupAct.createTcpSock ∈ tcp_server_startup true true true true 0 true true ∧
    SetupAct.usageError ∈ tcp_server_startup true true true true 0 true true ∧
    SetupAct.exitStatus 1 ∈ tcp_server_startup true true true true 0 true true ∧
    SetupAct.createUdpSock ∈
      epoll_server_startup true true true true true true 0 true true true true := by
  refine ⟨?_, ?_, ?_, ?_, ?_⟩ <;> simp [tcp_server_startup, epoll_server_startup]

/-- C9 (amended): a missing argument (argc not 4) yields the usage
error and exit code 1 before any socket is created, in both variants;
a zero port also yields the usage error and exit code 1, but only after
the UDP socket (and, in the epoll variant, the epoll instance) and the
TCP listening socket have been created; they are closed again before the
exit. -/
theorem config_failure_behavior (hv uOk tOk bOk lOk eOk soOk nbOk aOk : Bool) (port : Nat) :
    tcp_server_startup false uOk hv tOk port bOk lOk =
      [SetupAct.usageError, SetupAct.exitStatus 1] ∧
    epoll_server_startup false uOk hv eOk tOk soOk port bOk lOk nbOk aOk =
      [SetupAct.usageError, SetupAct.exitStatus 1] ∧
    tcp_server_startup true true true true 0 bOk lOk =
      [SetupAct.createUdpSock, SetupAct.createTcpSock, SetupAct.usageError,
        SetupAct.closeUdpSock, SetupAct.closeTcpSock, SetupAct.exitStatus 1] ∧
    epoll_server_startup true true true true true true 0 bOk lOk nbOk aOk =
      [SetupAct.createUdpSock, SetupAct.createEpollFd, SetupAct.createTcpSock,
        SetupAct.usageError, SetupAct.closeUdpSock, SetupAct.closeEpollFd,
        SetupAct.closeTcpSock, SetupAct.exitStatus 1] :=
  ⟨rfl, rfl, rfl, rfl⟩

/-- `BUFFER_SIZE` of udp_server.c. -/
def BUFFER_SIZE : Nat := 4096

/-- Bytes the UDP log sink appends for one received datagram
(udp_server.c lines 82-97 and the threaded variant's
`udp_receive_thread` lines 54-86): `recvfrom` stores at most
`sizeof(buffer) - 1` bytes, the buffer is then null-terminated, and
`fprintf(fp, "%s", buffer)` writes bytes only up to the first zero
byte. -/
def logged_bytes (datagram : List Nat) : List Nat :=
  (datagram.take (BUFFER_SIZE - 1)).takeWhile (fun b => b != 0)

/-- C8 fails on the code: for the datagram 0x68 0x00 0x69 the sink
appends only the single byte 0x68 — the zero byte and everything after
it are dropped by the `%s` format — contradicting both the claim and
the source's own doc comment that datagrams are written verbatim.
Datagrams longer than 4095 bytes are also truncated by the `recvfrom`
size argument. -/
theorem udp_sink_drops_bytes :
    logged_bytes [104, 0, 105] = [104] ∧
    logged_bytes [104, 0, 105] ≠ [104, 0, 105] ∧
    logged_bytes (List.replicate 4096 65) = List.replicate 4095 65 := by
  refine ⟨by decide, by decide, ?_⟩
  have h1 : (List.replicate 4096 65).take (BUFFER_SIZE - 1) = List.replicate 4095 (65 : Nat) := by
    rw [BUFFER_SIZE, List.take_replicate]
    norm_num
  rw [logged_bytes, h1]
  rw [List.takeWhile_eq_self_iff.mpr]
  intro b hb
  have hb2 : b = 65 := List.eq_of_mem_replicate hb
  rw [hb2]
  decide
